import Mathlib

/-!
Verification of the regime-adaptive signal generation and risk-gated
order-reconciliation pipeline of a grid/DCA trading bot.

The Python sources are shallowly embedded: floats become exact rationals
(`ℚ`), SQLite rows become structures, and every call to an external
collaborator (the ccxt exchange, the funding-rate feed, precision
rounding) becomes an explicit input of the embedded function, so that
each embedded definition is a pure function of its inputs exactly as the
corresponding Python routine is a function of its inputs and of the
values its collaborators return.
-/

set_option maxRecDepth 4000

namespace CryptoBot

/-! ## Data model (src/models/schemas.py) -/

/-- models.schemas.MarketRegime -/
inductive MarketRegime where
  | RANGING
  | TRENDING_UP
  | TRENDING_DOWN
  | CRASH
deriving DecidableEq, Repr

/-- models.schemas.OrderSide -/
inductive OrderSide where
  | BUY
  | SELL
deriving DecidableEq, Repr

/-- models.schemas.SignalType -/
inductive SignalType where
  | GRID_BUY
  | GRID_SELL
  | DCA_BUY
  | DCA_TAKE_PROFIT
deriving DecidableEq, Repr

/-- models.schemas.OrderSignal (the timestamp field carries no decision
logic and is omitted). -/
structure OrderSignal where
  pair : String
  side : OrderSide
  price : ℚ
  amount : ℚ
  signalType : SignalType
deriving DecidableEq, Repr

/-- models.schemas.OrderStatus -/
inductive OrderStatus where
  | PENDING
  | OPEN
  | FILLED
  | PARTIALLY_FILLED
  | CANCELLED
  | FAILED
deriving DecidableEq, Repr

/-- models.schemas.TradeLog (timestamps omitted). -/
structure TradeLog where
  orderId : String
  pair : String
  side : OrderSide
  price : ℚ
  amount : ℚ
  filled : ℚ
  fee : ℚ
  status : OrderStatus
  signalType : SignalType
deriving DecidableEq, Repr

/-- `signal.side.value.lower()` as used when signals are compared against
exchange order dictionaries. -/
def sideStr : OrderSide → String
  | OrderSide.BUY => "buy"
  | OrderSide.SELL => "sell"

/-! ## Configuration constants (src/config/settings.py, src/config/grid_config.py) -/

def LEVERAGE : ℚ := 10
def TOTAL_CAPITAL : ℚ := 900
def DCA_RESERVE : ℚ := 225
def MAX_POSITION_PCT : ℚ := 80/100
def MAX_OPEN_ORDERS : ℕ := 36
def DAILY_LOSS_LIMIT_PCT : ℚ := 5/100
def KILL_SWITCH_DRAWDOWN : ℚ := 10/100
def ADX_TRENDING_THRESHOLD : ℚ := 25
def CRASH_DROP_PCT : ℚ := 5/100
def CRASH_RSI_THRESHOLD : ℚ := 30

/-- One entry of config.grid_config.GRID_PARAMS. -/
structure GridParams where
  numGrids : ℕ
  gridSpacingPct : ℚ
  orderSizeUsdt : ℚ
  rangePct : ℚ
deriving DecidableEq, Repr

/-- config.grid_config.GRID_PARAMS -/
def GRID_PARAMS : List (String × GridParams) :=
  [ ("BTC/USDT:USDT", ⟨6, 8/1000, 25, 48/1000⟩)
  , ("ETH/USDT:USDT", ⟨6, 8/1000, 20, 48/1000⟩)
  , ("SOL/USDT:USDT", ⟨6, 10/1000, 20, 6/100⟩)
  , ("XRP/USDT:USDT", ⟨6, 10/1000, 25, 6/100⟩)
  , ("DOGE/USDT:USDT", ⟨10, 12/1000, 15, 8/100⟩) ]

/-- config.grid_config.DCA_PARAMS -/
structure DcaParams where
  entryPct : ℚ
  additionalDropPct : ℚ
  maxEntriesPerDip : ℕ
  takeProfitPct : ℚ
deriving DecidableEq, Repr

def DCA_PARAMS : DcaParams := ⟨5/100, 3/100, 3, 1/100⟩

/-! ## RegimeClassifier (src/agents/market_analyst.py, determine_regime) -/

/-- The indicator dictionary handed to `MarketAnalyst.determine_regime`. -/
structure IndicatorValues where
  currentPrice : ℚ
  adx : ℚ
  rsi : ℚ
  priceChange24h : ℚ
  volRatio : ℚ
  emaShort : ℚ
  emaLong : ℚ
deriving DecidableEq, Repr

/-- The regime-threshold settings read by `determine_regime`
(settings.CRASH_DROP_PCT, settings.CRASH_RSI_THRESHOLD,
settings.ADX_TRENDING_THRESHOLD). -/
structure RegimeSettings where
  crashDropPct : ℚ
  crashRsiThreshold : ℚ
  adxTrendingThreshold : ℚ
deriving DecidableEq, Repr

/-- Python `round(q, 2)`.  Mathlib's `round` rounds halves up while Python
rounds halves to even, but `determine_regime` only ever rounds multiples
of `1/4`, where the two agree. -/
def round2 (q : ℚ) : ℚ := (round (q * 100) : ℤ) / 100

/-- `MarketAnalyst.determine_regime` (market_analyst.py lines 69-110). -/
def determineRegime (s : RegimeSettings) (ind : IndicatorValues) : MarketRegime × ℚ :=
  if ind.priceChange24h ≤ -s.crashDropPct ∧ ind.rsi ≤ s.crashRsiThreshold then
    (MarketRegime.CRASH, 1)
  else if s.adxTrendingThreshold ≤ ind.adx then
    let regime := if ind.emaLong < ind.emaShort then MarketRegime.TRENDING_UP
                  else MarketRegime.TRENDING_DOWN
    let agreeing : ℕ :=
      1 + (if 30 < ind.adx then 1 else 0)
        + (if (15/10 : ℚ) < ind.volRatio then 1 else 0)
        + (if (regime = MarketRegime.TRENDING_UP ∧ 55 < ind.rsi) ∨
              (regime = MarketRegime.TRENDING_DOWN ∧ ind.rsi < 45) then 1 else 0)
    (regime, round2 ((agreeing : ℚ) / 4))
  else
    let agreeing : ℕ :=
      1 + (if ind.adx < 20 then 1 else 0)
        + (if ind.volRatio < (15/10 : ℚ) then 1 else 0)
        + (if 40 < ind.rsi ∧ ind.rsi < 60 then 1 else 0)
    (MarketRegime.RANGING, round2 ((agreeing : ℚ) / 4))

/-! ## Grid spacing (src/agents/strategy.py, _grid_signals lines 114-125) -/

/-- `bb_width_pct = (bb_upper - bb_lower) / price if price > 0 else 0.01` -/
def bbWidthPct (bbUpper bbLower price : ℚ) : ℚ :=
  if 0 < price then (bbUpper - bbLower) / price else 1/100

/-- `adx_multiplier = min(1.5, max(1.0, 1.0 + (adx - 15) * 0.02)) if adx > 15 else 1.0` -/
def adxMultiplier (adx : ℚ) : ℚ :=
  if 15 < adx then min (15/10 : ℚ) (max (1 : ℚ) (1 + (adx - 15) * (2/100))) else 1

/-- `confidence_mult = 1.3 if confidence < 0.5 else 1.0` -/
def confidenceMult (confidence : ℚ) : ℚ :=
  if confidence < 5/10 then 13/10 else 1

/-- `spacing_pct = max(0.004, min(0.02, (bb_width_pct / num_grids) * adx_multiplier * confidence_mult))` -/
def spacingPct (bbUpper bbLower price adx confidence : ℚ) (numGrids : ℕ) : ℚ :=
  max (4/1000 : ℚ)
    (min (2/100 : ℚ)
      (bbWidthPct bbUpper bbLower price / (numGrids : ℚ)
        * adxMultiplier adx * confidenceMult confidence))

end CryptoBot

namespace CryptoBot

/-! ## Theorems for C6 and C7 -/

/-- C6: the classifier returns regime CRASH if and only if both
`price_change_24h <= -crash_drop_pct` and `rsi <= crash_rsi_threshold`
hold (CRASH is checked first, so no other regime pre-empts it), and
every CRASH classification carries confidence exactly 1.0. -/
theorem crash_regime_iff_and_confidence_one (s : RegimeSettings) (ind : IndicatorValues) :
    ((determineRegime s ind).1 = MarketRegime.CRASH ↔
      ind.priceChange24h ≤ -s.crashDropPct ∧ ind.rsi ≤ s.crashRsiThreshold)
    ∧ ((determineRegime s ind).1 = MarketRegime.CRASH → (determineRegime s ind).2 = 1) := by
  unfold determineRegime
  split_ifs with h1 h2 h3 <;>
    simp_all

/-- Witness for C6 at a concrete crashing input: price down 6% with RSI 25
under the configured thresholds (5% drop, RSI 30) classifies as CRASH with
confidence 1.0. -/
theorem crash_regime_witness :
    (determineRegime ⟨CRASH_DROP_PCT, CRASH_RSI_THRESHOLD, ADX_TRENDING_THRESHOLD⟩
        ⟨50000, 18, 25, -6/100, 1, 49000, 50000⟩).1 = MarketRegime.CRASH
    ∧ (determineRegime ⟨CRASH_DROP_PCT, CRASH_RSI_THRESHOLD, ADX_TRENDING_THRESHOLD⟩
        ⟨50000, 18, 25, -6/100, 1, 49000, 50000⟩).2 = 1 := by
  refine ⟨?_, ?_⟩
  · exact (crash_regime_iff_and_confidence_one _ _).1.mpr (by norm_num [CRASH_DROP_PCT, CRASH_RSI_THRESHOLD])
  · exact (crash_regime_iff_and_confidence_one _ _).2
      ((crash_regime_iff_and_confidence_one _ _).1.mpr (by norm_num [CRASH_DROP_PCT, CRASH_RSI_THRESHOLD]))

/-- C7: for every Bollinger band width, ADX value, regime confidence and
grid level count, the computed `spacing_pct` lies in the closed interval
[0.004, 0.02]. -/
theorem spacing_pct_in_bounds (bbUpper bbLower price adx confidence : ℚ) (numGrids : ℕ) :
    (4/1000 : ℚ) ≤ spacingPct bbUpper bbLower price adx confidence numGrids
    ∧ spacingPct bbUpper bbLower price adx confidence numGrids ≤ (2/100 : ℚ) := by
  unfold spacingPct
  constructor
  · exact le_max_left _ _
  · exact max_le (by norm_num) (min_le_left _ _)

end CryptoBot

namespace CryptoBot

/-! ## RiskGate (src/agents/risk_manager.py) -/

/-- The risk-limit settings read by `RiskManager`
(settings.KILL_SWITCH_DRAWDOWN, DAILY_LOSS_LIMIT_PCT, MAX_OPEN_ORDERS,
MAX_POSITION_PCT, LEVERAGE). -/
structure RiskSettings where
  killSwitchDrawdown : ℚ
  dailyLossLimitPct : ℚ
  maxOpenOrders : ℕ
  maxPositionPct : ℚ
  leverage : ℚ
deriving Repr

/-- Everything one `validate_signals` call observes:
`self.starting_capital` (settings.TOTAL_CAPITAL at construction),
`self.current_balance`, the result of `_get_daily_realized_pnl()`, the
result of `_get_open_order_count()`, and the per-pair result of
`_get_pair_exposure(pair)`.  The exposure query reads the trades table,
which `validate_signals` never writes, so it is constant over one pass. -/
structure RiskState where
  startingCapital : ℚ
  currentBalance : ℚ
  dailyRealizedPnl : ℚ
  openOrderCount : ℕ
  pairExposure : String → ℚ

/-- `RiskManager.check_kill_switch` (risk_manager.py lines 73-81). -/
def checkKillSwitch (s : RiskSettings) (st : RiskState) : Bool :=
  decide (s.killSwitchDrawdown ≤
    (st.startingCapital - st.currentBalance) / st.startingCapital)

/-- The `for signal in signals` loop of `RiskManager.validate_signals`
(risk_manager.py lines 49-68), with `approved` as accumulator. -/
def validateLoop (s : RiskSettings) (st : RiskState) :
    List OrderSignal → List OrderSignal → List OrderSignal
  | [], approved => approved
  | sig :: rest, approved =>
    if s.maxOpenOrders ≤ st.openOrderCount + approved.length then approved
    else
      if sig.side = OrderSide.BUY ∧
          st.startingCapital * s.maxPositionPct <
            st.pairExposure sig.pair / s.leverage + sig.price * sig.amount / s.leverage then
        validateLoop s st rest approved
      else
        validateLoop s st rest (approved ++ [sig])

/-- `RiskManager.validate_signals` (risk_manager.py lines 34-71). -/
def validateSignals (s : RiskSettings) (st : RiskState)
    (signals : List OrderSignal) : List OrderSignal :=
  if checkKillSwitch s st = true then []
  else if st.dailyRealizedPnl ≤ -(st.startingCapital * s.dailyLossLimitPct) then []
  else validateLoop s st signals []

/-- The risk settings as configured in settings.py. -/
def riskSettings : RiskSettings :=
  ⟨KILL_SWITCH_DRAWDOWN, DAILY_LOSS_LIMIT_PCT, MAX_OPEN_ORDERS, MAX_POSITION_PCT, LEVERAGE⟩

/-- A risk state with the given capital and balance and everything else
quiescent (no daily loss, no open orders, no exposure). -/
def mkRiskState (startingCapital currentBalance : ℚ) : RiskState :=
  ⟨startingCapital, currentBalance, 0, 0, fun _ => 0⟩

def sampleSignal : OrderSignal :=
  ⟨"BTC/USDT:USDT", OrderSide.BUY, 50000, 0.002, SignalType.GRID_BUY⟩

/-- C3: the kill switch fires exactly when
`(starting_capital - current_balance)/starting_capital` reaches the
drawdown threshold (boundary inclusive): with starting capital 1000 and a
10% threshold, balance 900 fires and balance 901 does not; and whenever
it fires, `validate_signals` approves nothing. -/
theorem kill_switch_boundary_and_rejects_all (s : RiskSettings) (st : RiskState)
    (signals : List OrderSignal) :
    (checkKillSwitch s st = true ↔
      s.killSwitchDrawdown ≤ (st.startingCapital - st.currentBalance) / st.startingCapital)
    ∧ checkKillSwitch riskSettings (mkRiskState 1000 900) = true
    ∧ checkKillSwitch riskSettings (mkRiskState 1000 901) = false
    ∧ (checkKillSwitch s st = true → validateSignals s st signals = []) := by
  refine ⟨by simp [checkKillSwitch],
    by norm_num [checkKillSwitch, riskSettings, mkRiskState, KILL_SWITCH_DRAWDOWN],
    by norm_num [checkKillSwitch, riskSettings, mkRiskState, KILL_SWITCH_DRAWDOWN],
    fun h => ?_⟩
  simp [validateSignals, h]

/-- Witness for C3: at starting capital 1000 and balance 900 the kill
switch fires, and the validation of a nonempty signal list returns []. -/
theorem kill_switch_witness :
    checkKillSwitch riskSettings (mkRiskState 1000 900) = true
    ∧ validateSignals riskSettings (mkRiskState 1000 900) [sampleSignal] = [] :=
  ⟨by norm_num [checkKillSwitch, riskSettings, mkRiskState, KILL_SWITCH_DRAWDOWN],
    (kill_switch_boundary_and_rejects_all riskSettings (mkRiskState 1000 900)
      [sampleSignal]).2.2.2
      (by norm_num [checkKillSwitch, riskSettings, mkRiskState, KILL_SWITCH_DRAWDOWN])⟩

lemma validateLoop_eq_take (s : RiskSettings) (st : RiskState) (sigs : List OrderSignal) :
    ∀ approved : List OrderSignal,
      (∀ sig ∈ sigs, sig.side = OrderSide.BUY →
        st.pairExposure sig.pair / s.leverage + sig.price * sig.amount / s.leverage
          ≤ st.startingCapital * s.maxPositionPct) →
      validateLoop s st sigs approved
        = approved ++ sigs.take (s.maxOpenOrders - (st.openOrderCount + approved.length)) := by
  induction sigs with
  | nil => intro approved _; simp [validateLoop]
  | cons sig rest ih =>
    intro approved h
    by_cases hcap : s.maxOpenOrders ≤ st.openOrderCount + approved.length
    · have hz : s.maxOpenOrders - (st.openOrderCount + approved.length) = 0 := by omega
      simp [validateLoop, hcap, hz]
    · have hmargin := h sig (List.mem_cons_self sig rest)
      have hskip : ¬ (sig.side = OrderSide.BUY ∧
          st.startingCapital * s.maxPositionPct <
            st.pairExposure sig.pair / s.leverage + sig.price * sig.amount / s.leverage) := by
        rintro ⟨hbuy, hlt⟩
        exact absurd (hmargin hbuy) (not_le.mpr hlt)
      have hrest : ∀ x ∈ rest, x.side = OrderSide.BUY →
          st.pairExposure x.pair / s.leverage + x.price * x.amount / s.leverage
            ≤ st.startingCapital * s.maxPositionPct :=
        fun x hx => h x (List.mem_cons_of_mem sig hx)
      have hsucc : s.maxOpenOrders - (st.openOrderCount + approved.length)
          = (s.maxOpenOrders - (st.openOrderCount + (approved ++ [sig]).length)) + 1 := by
        simp only [List.length_append, List.length_singleton]
        omega
      simp only [validateLoop, if_neg hcap, if_neg hskip]
      rw [ih (approved ++ [sig]) hrest, hsucc, List.take_succ_cons]
      simp

/-- C4: when neither the kill switch nor the daily-loss gate fires and no
BUY signal exceeds the per-instrument margin cap, `validate_signals`
approves exactly the first `max_open_orders - open_order_count` signals in
submission order and drops the remainder. -/
theorem risk_gate_open_order_cap (s : RiskSettings) (st : RiskState)
    (signals : List OrderSignal)
    (hkill : checkKillSwitch s st = false)
    (hdaily : ¬ st.dailyRealizedPnl ≤ -(st.startingCapital * s.dailyLossLimitPct))
    (hmargin : ∀ sig ∈ signals, sig.side = OrderSide.BUY →
        st.pairExposure sig.pair / s.leverage + sig.price * sig.amount / s.leverage
          ≤ st.startingCapital * s.maxPositionPct) :
    validateSignals s st signals = signals.take (s.maxOpenOrders - st.openOrderCount) := by
  unfold validateSignals
  rw [hkill]
  simp only [Bool.false_eq_true, if_false, if_neg hdaily]
  simpa using validateLoop_eq_take s st signals [] hmargin

/-- A risk configuration with an open-order cap of 10, with 8 orders
already open, as in the spec scenario for the max-open-orders gate. -/
def capSettings : RiskSettings := ⟨10/100, 5/100, 10, 80/100, 10⟩

def capState : RiskState := ⟨1000, 1000, 0, 8, fun _ => 0⟩

def capBuySig (p : ℚ) : OrderSignal :=
  ⟨"BTC/USDT:USDT", OrderSide.BUY, p, 1/100, SignalType.GRID_BUY⟩

/-- Witness for C4: 8 open orders, cap 10, 5 proposed BUY signals within
the margin cap: exactly the first 2 are approved, in submission order. -/
theorem risk_gate_open_order_cap_witness :
    validateSignals capSettings capState
        [capBuySig 50000, capBuySig 49900, capBuySig 49800, capBuySig 49700, capBuySig 49600]
      = [capBuySig 50000, capBuySig 49900] := by
  have h := risk_gate_open_order_cap capSettings capState
    [capBuySig 50000, capBuySig 49900, capBuySig 49800, capBuySig 49700, capBuySig 49600]
    (by norm_num [checkKillSwitch, capSettings, capState])
    (by norm_num [capSettings, capState])
    (by intro sig hs; fin_cases hs <;> intro hb <;> norm_num [capSettings, capState, capBuySig])
  exact h.trans rfl

end CryptoBot

namespace CryptoBot

/-! ## ExecutionAgent (src/agents/executor.py) -/

/-- The fields of the ccxt order dict that `_place_order` reads from the
`exchange.create_order` response. -/
structure ExchCreateResult where
  id : String
  average : ℚ
  price : ℚ
  filled : ℚ
  status : String
  fee : ℚ
deriving DecidableEq, Repr

/-- `ExecutionAgent._map_status` (executor.py lines 298-307). -/
def mapStatus (exchangeStatus : String) : OrderStatus :=
  if exchangeStatus = "open" then OrderStatus.OPEN
  else if exchangeStatus = "closed" then OrderStatus.FILLED
  else if exchangeStatus = "canceled" then OrderStatus.CANCELLED
  else if exchangeStatus = "expired" then OrderStatus.CANCELLED
  else OrderStatus.PENDING

/-- `ExecutionAgent._place_order` (executor.py lines 44-122).  The exchange
call `create_order` (with its retry loop) is an explicit input
`createOrder`; `none` stands for every failing path (InsufficientFunds,
InvalidOrder, or all three retries exhausted), each of which makes
`_place_order` return None.  The minimum-notional guard runs before the
exchange is consulted. -/
def placeOrder (createOrder : OrderSignal → Option ExchCreateResult)
    (signal : OrderSignal) : Option TradeLog :=
  if signal.price * signal.amount < 100 then none
  else
    match createOrder signal with
    | none => none
    | some order =>
      let fillPrice := if order.average ≠ 0 then order.average
                       else if order.price ≠ 0 then order.price
                       else signal.price
      some ⟨order.id, signal.pair, signal.side, fillPrice, signal.amount,
            order.filled, order.fee, mapStatus order.status, signal.signalType⟩

/-- `ExecutionAgent.execute_orders` (executor.py lines 32-42). -/
def executeOrders (createOrder : OrderSignal → Option ExchCreateResult)
    (signals : List OrderSignal) : List TradeLog :=
  signals.filterMap (placeOrder createOrder)

/-- A resting order as returned by `exchange.fetch_open_orders`: the
fields read by `selective_refresh` (`o["side"]`, `o["price"]`,
`o.get("type")`, `o["info"]["type"]`). -/
structure ExchOrder where
  oid : String
  side : String
  price : ℚ
  otype : String
  rawType : String
deriving DecidableEq, Repr

/-- Python `str.lower()` on one ASCII character (all strings compared in
this code path are ASCII). -/
def charLower (c : Char) : Char :=
  if 65 ≤ c.toNat ∧ c.toNat ≤ 90 then Char.ofNat (c.toNat + 32) else c

/-- Python `str.upper()` on one ASCII character. -/
def charUpper (c : Char) : Char :=
  if 97 ≤ c.toNat ∧ c.toNat ≤ 122 then Char.ofNat (c.toNat - 32) else c

/-- Python `str.lower()` (ASCII). -/
def strLower (s : String) : String := ⟨s.data.map charLower⟩

/-- Python `str.upper()` (ASCII). -/
def strUpper (s : String) : String := ⟨s.data.map charUpper⟩

/-- The limit-order filter of `selective_refresh` (executor.py lines
178-183): keep `type == "limit"` and drop stop/conditional raw types. -/
def isEligibleLimit (o : ExchOrder) : Bool :=
  decide (strLower o.otype = "limit"
    ∧ strUpper o.rawType ≠ "STOP_MARKET"
    ∧ strUpper o.rawType ≠ "STOP"
    ∧ strUpper o.rawType ≠ "STOP_LIMIT")

/-- Grid-signal test of `selective_refresh` (executor.py lines 191-194). -/
def isGridSignal (s : OrderSignal) : Bool :=
  decide (s.signalType = SignalType.GRID_BUY ∨ s.signalType = SignalType.GRID_SELL)

/-- The relative price difference computed at executor.py line 212:
`abs(order_price - signal.price) / max(order_price, 1)`. -/
def relDiff (orderPrice signalPrice : ℚ) : ℚ :=
  |orderPrice - signalPrice| / max orderPrice 1

/-- The inner best-match loop of `selective_refresh` (executor.py lines
206-215), with the running `(best_match, best_diff)` as accumulator
(`none` plays the role of `best_match = None, best_diff = inf`). -/
def bestMatchLoop (tolerance : ℚ) (orderSide : String) (orderPrice : ℚ) :
    List OrderSignal → Option (OrderSignal × ℚ) → Option (OrderSignal × ℚ)
  | [], best => best
  | signal :: rest, best =>
    if sideStr signal.side ≠ orderSide then
      bestMatchLoop tolerance orderSide orderPrice rest best
    else
      let priceDiff := relDiff orderPrice signal.price
      match best with
      | none =>
        if priceDiff < tolerance then
          bestMatchLoop tolerance orderSide orderPrice rest (some (signal, priceDiff))
        else
          bestMatchLoop tolerance orderSide orderPrice rest none
      | some (b, bd) =>
        if priceDiff < tolerance ∧ priceDiff < bd then
          bestMatchLoop tolerance orderSide orderPrice rest (some (signal, priceDiff))
        else
          bestMatchLoop tolerance orderSide orderPrice rest (some (b, bd))

def bestMatch (tolerance : ℚ) (o : ExchOrder) (signalsToPlace : List OrderSignal) :
    Option (OrderSignal × ℚ) :=
  bestMatchLoop tolerance o.side o.price signalsToPlace none

/-- Running state of the `for order in existing_limit` loop of
`selective_refresh`: the shrinking `signals_to_place`, the growing
`orders_to_cancel`, and the `kept` counter. -/
structure RefreshAcc where
  toPlace : List OrderSignal
  toCancel : List ExchOrder
  kept : ℕ
deriving Repr

/-- One iteration of the `for order in existing_limit` loop (executor.py
lines 202-225): a matched order removes its signal from the placement
list and counts as kept, an unmatched order joins the cancel list. -/
def refreshStep (tolerance : ℚ) (acc : RefreshAcc) (o : ExchOrder) : RefreshAcc :=
  match bestMatch tolerance o acc.toPlace with
  | some (m, _) => ⟨acc.toPlace.erase m, acc.toCancel, acc.kept + 1⟩
  | none => ⟨acc.toPlace, acc.toCancel ++ [o], acc.kept⟩

/-- `ExecutionAgent.selective_refresh` (executor.py lines 160-244).  The
`fetch_open_orders` call is the explicit input `fetched` (`Except.error`
models the exception path).  Individual cancel failures only affect
logging, so the cancel loop contributes exactly the length of
`orders_to_cancel` to the returned count. -/
def selectiveRefresh (createOrder : OrderSignal → Option ExchCreateResult)
    (fetched : Except Unit (List ExchOrder)) (newSignals : List OrderSignal)
    (spacingPctArg : ℚ) : ℕ × ℕ × List TradeLog :=
  match fetched with
  | Except.error _ => (0, 0, executeOrders createOrder newSignals)
  | Except.ok existing =>
    let existingLimit := existing.filter isEligibleLimit
    if existingLimit.isEmpty then (0, 0, executeOrders createOrder newSignals)
    else
      let gridSignals := newSignals.filter isGridSignal
      let nonGridSignals := newSignals.filter fun s => ! isGridSignal s
      let tolerance := spacingPctArg * (1/2)
      let acc := existingLimit.foldl (refreshStep tolerance) ⟨gridSignals, [], 0⟩
      (acc.kept, acc.toCancel.length, executeOrders createOrder (acc.toPlace ++ nonGridSignals))

/-! ## Theorems for C9 and C10 -/

/-- C9: if the resting-order fetch fails, `selective_refresh` reports zero
kept and zero cancelled orders and places all proposed signals, exactly as
if no resting orders existed; the failure is absorbed, not propagated. -/
theorem fetch_failure_places_all (createOrder : OrderSignal → Option ExchCreateResult)
    (signals : List OrderSignal) (sp : ℚ) :
    selectiveRefresh createOrder (Except.error ()) signals sp
      = (0, 0, executeOrders createOrder signals)
    ∧ selectiveRefresh createOrder (Except.error ()) signals sp
      = selectiveRefresh createOrder (Except.ok []) signals sp :=
  ⟨rfl, rfl⟩

/-- C10: a signal whose notional `price * amount` is below 100 is dropped
before any exchange call (for every possible exchange behaviour the result
is None), and every trade reported by `execute_orders` stems from a signal
whose notional is at least 100. -/
theorem min_notional_filter (createOrder : OrderSignal → Option ExchCreateResult) :
    (∀ signal : OrderSignal, signal.price * signal.amount < 100 →
        placeOrder createOrder signal = none)
    ∧ (∀ (signals : List OrderSignal) (t : TradeLog),
        t ∈ executeOrders createOrder signals →
        ∃ s ∈ signals, 100 ≤ s.price * s.amount
          ∧ placeOrder createOrder s = some t
          ∧ t.amount = s.amount ∧ t.pair = s.pair) := by
  have hbase : ∀ s : OrderSignal, ∀ t : TradeLog,
      placeOrder createOrder s = some t →
      100 ≤ s.price * s.amount ∧ t.amount = s.amount ∧ t.pair = s.pair := by
    intro s t hp
    unfold placeOrder at hp
    by_cases hlt : s.price * s.amount < 100
    · simp [hlt] at hp
    · refine ⟨not_lt.mp hlt, ?_, ?_⟩ <;>
      · rw [if_neg hlt] at hp
        cases hco : createOrder s with
        | none => rw [hco] at hp; cases hp
        | some order =>
          rw [hco] at hp
          simp only [Option.some.injEq] at hp
          subst hp
          rfl
  constructor
  · intro signal h
    simp [placeOrder, h]
  · intro signals t ht
    rcases List.mem_filterMap.mp ht with ⟨s, hs, hp⟩
    exact ⟨s, hs, (hbase s t hp).1, hp, (hbase s t hp).2⟩

def oracleFill : OrderSignal → Option ExchCreateResult :=
  fun _ => some ⟨"o1", 0, 0, 0, "open", 0⟩

def lowNotionalSig : OrderSignal :=
  ⟨"BTC/USDT:USDT", OrderSide.BUY, 50, 1, SignalType.GRID_BUY⟩

def highNotionalSig : OrderSignal :=
  ⟨"BTC/USDT:USDT", OrderSide.SELL, 50000, 1/100, SignalType.GRID_SELL⟩

def highNotionalTrade : TradeLog :=
  ⟨"o1", "BTC/USDT:USDT", OrderSide.SELL, 50000, 1/100, 0, 0,
    OrderStatus.OPEN, SignalType.GRID_SELL⟩

/-- Witness for C10: a $50-notional signal is dropped even though the
exchange would accept it, and the trade placed for a $500-notional signal
is traced back to that signal. -/
theorem min_notional_filter_witness :
    placeOrder oracleFill lowNotionalSig = none
    ∧ ∃ s ∈ [highNotionalSig], 100 ≤ s.price * s.amount
        ∧ placeOrder oracleFill s = some highNotionalTrade
        ∧ highNotionalTrade.amount = s.amount ∧ highNotionalTrade.pair = s.pair := by
  constructor
  · exact (min_notional_filter oracleFill).1 lowNotionalSig (by norm_num [lowNotionalSig])
  · refine (min_notional_filter oracleFill).2 [highNotionalSig] highNotionalTrade ?_
    norm_num [executeOrders, placeOrder, oracleFill, highNotionalSig, highNotionalTrade, mapStatus]

end CryptoBot

namespace CryptoBot

/-! ## OrderReconciler matching specification (C5) -/

/-- If the running best is already `some`, the inner loop never returns
`none` (a found match is never discarded). -/
lemma bestMatchLoop_some_isSome (tolerance : ℚ) (orderSide : String) (orderPrice : ℚ)
    (S : List OrderSignal) :
    ∀ x, (bestMatchLoop tolerance orderSide orderPrice S (some x)).isSome = true := by
  induction S with
  | nil => intro x; rfl
  | cons sig rest ih =>
    intro x
    obtain ⟨b, bd⟩ := x
    by_cases hside : sideStr sig.side ≠ orderSide
    · simp only [bestMatchLoop, if_pos hside]
      exact ih _
    · simp only [bestMatchLoop, if_neg hside]
      by_cases hc : relDiff orderPrice sig.price < tolerance ∧ relDiff orderPrice sig.price < bd
      · simp only [if_pos hc]; exact ih _
      · simp only [if_neg hc]; exact ih _

/-- The inner loop returns `none` exactly when it started from `none` and
no same-side signal within tolerance exists in the pool. -/
lemma bestMatchLoop_none_iff (tolerance : ℚ) (orderSide : String) (orderPrice : ℚ)
    (S : List OrderSignal) :
    ∀ best, (bestMatchLoop tolerance orderSide orderPrice S best = none ↔
      best = none ∧ ∀ s ∈ S, sideStr s.side = orderSide →
        ¬ relDiff orderPrice s.price < tolerance) := by
  induction S with
  | nil => intro best; simp [bestMatchLoop]
  | cons sig rest ih =>
    intro best
    rw [List.forall_mem_cons]
    by_cases hside : sideStr sig.side ≠ orderSide
    · simp only [bestMatchLoop, if_pos hside]
      rw [ih best]
      constructor
      · rintro ⟨h1, h2⟩
        exact ⟨h1, fun h => absurd h hside, h2⟩
      · rintro ⟨h1, -, h3⟩
        exact ⟨h1, h3⟩
    · have hs : sideStr sig.side = orderSide := not_not.mp hside
      cases best with
      | none =>
        by_cases hd : relDiff orderPrice sig.price < tolerance
        · simp only [bestMatchLoop, if_neg hside, if_pos hd]
          constructor
          · intro h
            have hsome := bestMatchLoop_some_isSome tolerance orderSide orderPrice rest
              (sig, relDiff orderPrice sig.price)
            rw [h] at hsome
            cases hsome
          · rintro ⟨-, hsig, -⟩
            exact absurd hd (hsig hs)
        · simp only [bestMatchLoop, if_neg hside, if_neg hd]
          simp [ih none, hd]
      | some x =>
        obtain ⟨b, bd⟩ := x
        simp only [bestMatchLoop, if_neg hside]
        constructor
        · intro h
          exfalso
          by_cases hc : relDiff orderPrice sig.price < tolerance ∧ relDiff orderPrice sig.price < bd
          · rw [if_pos hc] at h
            have hsome := bestMatchLoop_some_isSome tolerance orderSide orderPrice rest
              (sig, relDiff orderPrice sig.price)
            rw [h] at hsome
            cases hsome
          · rw [if_neg hc] at h
            have hsome := bestMatchLoop_some_isSome tolerance orderSide orderPrice rest (b, bd)
            rw [h] at hsome
            cases hsome
        · rintro ⟨h1, -⟩
          cases h1

/-- Full characterisation of a successful inner-loop search: the returned
candidate is within tolerance, comes from the pool (or was the incoming
best), and its difference is minimal among all same-side in-tolerance
pool entries and no larger than the incoming best difference. -/
lemma bestMatchLoop_some_spec (tolerance : ℚ) (orderSide : String) (orderPrice : ℚ)
    (S : List OrderSignal) :
    ∀ best m d,
      (∀ b bd, best = some (b, bd) → bd < tolerance) →
      bestMatchLoop tolerance orderSide orderPrice S best = some (m, d) →
      d < tolerance
      ∧ (best = some (m, d)
          ∨ (m ∈ S ∧ sideStr m.side = orderSide ∧ d = relDiff orderPrice m.price))
      ∧ (∀ s ∈ S, sideStr s.side = orderSide → relDiff orderPrice s.price < tolerance →
          d ≤ relDiff orderPrice s.price)
      ∧ (∀ b bd, best = some (b, bd) → d ≤ bd) := by
  induction S with
  | nil =>
    intro best m d hinv hloop
    simp only [bestMatchLoop] at hloop
    refine ⟨hinv m d hloop, Or.inl hloop, by simp, ?_⟩
    intro b bd hb
    rw [hb] at hloop
    simp only [Option.some.injEq, Prod.mk.injEq] at hloop
    exact le_of_eq hloop.2.symm
  | cons sig rest ih =>
    intro best m d hinv hloop
    rw [List.forall_mem_cons]
    by_cases hside : sideStr sig.side ≠ orderSide
    · simp only [bestMatchLoop, if_pos hside] at hloop
      obtain ⟨h1, h2, h3, h4⟩ := ih best m d hinv hloop
      refine ⟨h1, ?_, ⟨fun h => absurd h hside, h3⟩, h4⟩
      rcases h2 with h2 | ⟨hm, hrest⟩
      · exact Or.inl h2
      · exact Or.inr ⟨List.mem_cons_of_mem sig hm, hrest⟩
    · have hs : sideStr sig.side = orderSide := not_not.mp hside
      cases best with
      | none =>
        by_cases hd : relDiff orderPrice sig.price < tolerance
        · simp only [bestMatchLoop, if_neg hside, if_pos hd] at hloop
          have hinv2 : ∀ b bd,
              (some (sig, relDiff orderPrice sig.price) : Option (OrderSignal × ℚ))
                = some (b, bd) → bd < tolerance := by
            intro b bd hb
            simp only [Option.some.injEq, Prod.mk.injEq] at hb
            rw [← hb.2]
            exact hd
          obtain ⟨h1, h2, h3, h4⟩ := ih (some (sig, relDiff orderPrice sig.price)) m d hinv2 hloop
          refine ⟨h1, ?_, ⟨fun _ _ => h4 sig (relDiff orderPrice sig.price) rfl, h3⟩, by simp⟩
          rcases h2 with h2 | ⟨hm, hrest⟩
          · simp only [Option.some.injEq, Prod.mk.injEq] at h2
            obtain ⟨rfl, rfl⟩ := h2
            exact Or.inr ⟨List.mem_cons_self sig rest, hs, rfl⟩
          · exact Or.inr ⟨List.mem_cons_of_mem sig hm, hrest⟩
        · simp only [bestMatchLoop, if_neg hside, if_neg hd] at hloop
          obtain ⟨h1, h2, h3, h4⟩ := ih none m d (by simp) hloop
          refine ⟨h1, ?_, ⟨fun _ hc => absurd hc hd, h3⟩, by simp⟩
          rcases h2 with h2 | ⟨hm, hrest⟩
          · cases h2
          · exact Or.inr ⟨List.mem_cons_of_mem sig hm, hrest⟩
      | some x =>
        obtain ⟨b0, bd0⟩ := x
        have hbd0 : bd0 < tolerance := hinv b0 bd0 rfl
        by_cases hc : relDiff orderPrice sig.price < tolerance
            ∧ relDiff orderPrice sig.price < bd0
        · simp only [bestMatchLoop, if_neg hside, if_pos hc] at hloop
          have hinv2 : ∀ b bd,
              (some (sig, relDiff orderPrice sig.price) : Option (OrderSignal × ℚ))
                = some (b, bd) → bd < tolerance := by
            intro b bd hb
            simp only [Option.some.injEq, Prod.mk.injEq] at hb
            rw [← hb.2]
            exact hc.1
          obtain ⟨h1, h2, h3, h4⟩ := ih (some (sig, relDiff orderPrice sig.price)) m d hinv2 hloop
          have hdle : d ≤ relDiff orderPrice sig.price := h4 sig (relDiff orderPrice sig.price) rfl
          refine ⟨h1, ?_, ⟨fun _ _ => hdle, h3⟩, ?_⟩
          · rcases h2 with h2 | ⟨hm, hrest⟩
            · simp only [Option.some.injEq, Prod.mk.injEq] at h2
              obtain ⟨rfl, rfl⟩ := h2
              exact Or.inr ⟨List.mem_cons_self sig rest, hs, rfl⟩
            · exact Or.inr ⟨List.mem_cons_of_mem sig hm, hrest⟩
          · intro b bd hb
            simp only [Option.some.injEq, Prod.mk.injEq] at hb
            rw [← hb.2]
            exact le_of_lt (lt_of_le_of_lt hdle hc.2)
        · simp only [bestMatchLoop, if_neg hside, if_neg hc] at hloop
          obtain ⟨h1, h2, h3, h4⟩ := ih (some (b0, bd0)) m d hinv hloop
          have hdbd0 : d ≤ bd0 := h4 b0 bd0 rfl
          have hsigmin : sideStr sig.side = orderSide →
              relDiff orderPrice sig.price < tolerance → d ≤ relDiff orderPrice sig.price := by
            intro _ hdtol
            have : ¬ relDiff orderPrice sig.price < bd0 := fun hlt => hc ⟨hdtol, hlt⟩
            exact le_trans hdbd0 (not_lt.mp this)
          refine ⟨h1, ?_, ⟨hsigmin, h3⟩, h4⟩
          rcases h2 with h2 | ⟨hm, hrest⟩
          · exact Or.inl h2
          · exact Or.inr ⟨List.mem_cons_of_mem sig hm, hrest⟩

/-- `bestMatch` characterisation: a found match is a same-side pool signal
within tolerance whose relative difference is minimal over the pool. -/
lemma bestMatch_some_spec (tolerance : ℚ) (o : ExchOrder) (S : List OrderSignal)
    (m : OrderSignal) (d : ℚ) (h : bestMatch tolerance o S = some (m, d)) :
    m ∈ S ∧ sideStr m.side = o.side ∧ d = relDiff o.price m.price ∧ d < tolerance
    ∧ ∀ s ∈ S, sideStr s.side = o.side → relDiff o.price s.price < tolerance →
        d ≤ relDiff o.price s.price := by
  obtain ⟨h1, h2, h3, -⟩ :=
    bestMatchLoop_some_spec tolerance o.side o.price S none m d (by simp) h
  rcases h2 with h2 | ⟨hm, hs, hd⟩
  · cases h2
  · exact ⟨hm, hs, hd, h1, h3⟩

/-- `bestMatch` finds nothing exactly when no same-side in-tolerance
signal is in the pool. -/
lemma bestMatch_none_iff (tolerance : ℚ) (o : ExchOrder) (S : List OrderSignal) :
    bestMatch tolerance o S = none ↔
      ∀ s ∈ S, sideStr s.side = o.side → ¬ relDiff o.price s.price < tolerance := by
  unfold bestMatch
  rw [bestMatchLoop_none_iff]
  simp

/-- Specification of one matching pass over the resting orders, written
from the spec's description of selective refresh (with the relative price
difference as the code computes it, `|resting - signal| / max(resting, 1)`):
processed in order, a resting order is kept iff some unmatched same-side
signal lies strictly within tolerance, the chosen match has the smallest
difference and is removed from the pool, and every unmatched resting
order is cancelled. -/
inductive MatchRun (tolerance : ℚ) :
    List ExchOrder → List OrderSignal → List OrderSignal → List ExchOrder → ℕ → Prop where
  | nil (S : List OrderSignal) : MatchRun tolerance [] S S [] 0
  | keep (o : ExchOrder) (os : List ExchOrder) (S Sf : List OrderSignal)
      (C : List ExchOrder) (k : ℕ) (m : OrderSignal)
      (hmem : m ∈ S) (hside : sideStr m.side = o.side)
      (htol : relDiff o.price m.price < tolerance)
      (hbest : ∀ s ∈ S, sideStr s.side = o.side → relDiff o.price s.price < tolerance →
        relDiff o.price m.price ≤ relDiff o.price s.price)
      (hrest : MatchRun tolerance os (S.erase m) Sf C k) :
      MatchRun tolerance (o :: os) S Sf C (k + 1)
  | cancel (o : ExchOrder) (os : List ExchOrder) (S Sf : List OrderSignal)
      (C : List ExchOrder) (k : ℕ)
      (hno : ∀ s ∈ S, sideStr s.side = o.side → ¬ relDiff o.price s.price < tolerance)
      (hrest : MatchRun tolerance os S Sf C k) :
      MatchRun tolerance (o :: os) S Sf (o :: C) k

/-- The fold of `refreshStep` over the resting orders realises a
`MatchRun`: the final accumulator holds the leftover pool, the cancel
list extended by the cancelled orders, and the kept counter raised by the
number of kept orders. -/
lemma refresh_foldl_spec (tolerance : ℚ) (orders : List ExchOrder) :
    ∀ acc : RefreshAcc,
      ∃ Sf C k, MatchRun tolerance orders acc.toPlace Sf C k
        ∧ orders.foldl (refreshStep tolerance) acc
            = ⟨Sf, acc.toCancel ++ C, acc.kept + k⟩ := by
  induction orders with
  | nil =>
    intro acc
    exact ⟨acc.toPlace, [], 0, MatchRun.nil _, by simp⟩
  | cons o os ih =>
    intro acc
    cases hbm : bestMatch tolerance o acc.toPlace with
    | some md =>
      obtain ⟨m, d⟩ := md
      obtain ⟨hmem, hside, hdeq, htol, hbest⟩ := bestMatch_some_spec tolerance o acc.toPlace m d hbm
      obtain ⟨Sf, C, k, hrun, hfold⟩ := ih ⟨acc.toPlace.erase m, acc.toCancel, acc.kept + 1⟩
      refine ⟨Sf, C, k + 1, ?_, ?_⟩
      · refine MatchRun.keep o os acc.toPlace Sf C k m hmem hside (hdeq ▸ htol) ?_ hrun
        intro s hs h1 h2
        exact hdeq ▸ hbest s hs h1 h2
      · rw [List.foldl_cons]
        have hstep : refreshStep tolerance acc o
            = ⟨acc.toPlace.erase m, acc.toCancel, acc.kept + 1⟩ := by
          simp [refreshStep, hbm]
        rw [hstep, hfold]
        simp only [RefreshAcc.mk.injEq, eq_self_iff_true, true_and]
        omega
    | none =>
      have hno := (bestMatch_none_iff tolerance o acc.toPlace).mp hbm
      obtain ⟨Sf, C, k, hrun, hfold⟩ := ih ⟨acc.toPlace, acc.toCancel ++ [o], acc.kept⟩
      refine ⟨Sf, o :: C, k, MatchRun.cancel o os acc.toPlace Sf C k hno hrun, ?_⟩
      rw [List.foldl_cons]
      have hstep : refreshStep tolerance acc o
          = ⟨acc.toPlace, acc.toCancel ++ [o], acc.kept⟩ := by
        simp [refreshStep, hbm]
      rw [hstep, hfold]
      simp

/-- C5 (amended): when the resting-order fetch succeeds and leaves a
nonempty eligible limit-order list, selective refresh performs exactly one
matching pass as specified — kept orders are those with an unmatched
same-side grid signal whose relative difference `|r - s| / max(r, 1)` is
strictly below half the grid spacing, matched with smallest difference and
consuming the signal; unmatched orders are cancelled; the newly submitted
orders are exactly the leftover grid signals followed by all non-grid
(DCA) signals. -/
theorem selective_refresh_matches_spec (createOrder : OrderSignal → Option ExchCreateResult)
    (existing : List ExchOrder) (newSignals : List OrderSignal) (sp : ℚ)
    (hne : (existing.filter isEligibleLimit).isEmpty = false) :
    ∃ Sf C,
      MatchRun (sp * (1/2)) (existing.filter isEligibleLimit)
        (newSignals.filter isGridSignal) Sf C
        (selectiveRefresh createOrder (Except.ok existing) newSignals sp).1
      ∧ (selectiveRefresh createOrder (Except.ok existing) newSignals sp).2.1 = C.length
      ∧ (selectiveRefresh createOrder (Except.ok existing) newSignals sp).2.2
          = executeOrders createOrder (Sf ++ newSignals.filter fun s => ! isGridSignal s) := by
  obtain ⟨Sf, C, k, hrun, hfold⟩ := refresh_foldl_spec (sp * (1/2))
    (existing.filter isEligibleLimit) ⟨newSignals.filter isGridSignal, [], 0⟩
  have hsel : selectiveRefresh createOrder (Except.ok existing) newSignals sp
      = (k, C.length, executeOrders createOrder
          (Sf ++ newSignals.filter fun s => ! isGridSignal s)) := by
    simp only [selectiveRefresh, hne, Bool.false_eq_true, if_false]
    rw [hfold]
    simp
  rw [hsel]
  exact ⟨Sf, C, by simpa using hrun, rfl, rfl⟩

/-- A resting BUY limit order at price 0.5 (sub-dollar instruments such as
XRP trade at such prices). -/
def restingHalf : ExchOrder := ⟨"r1", "buy", 1/2, "limit", "LIMIT"⟩

/-- A proposed grid BUY 0.003 below the resting price. -/
def nearGridSig : OrderSignal :=
  ⟨"XRP/USDT:USDT", OrderSide.BUY, 497/1000, 1000, SignalType.GRID_BUY⟩

lemma relDiff_half : relDiff ((1:ℚ)/2) (497/1000) = 3/1000 := by
  unfold relDiff
  rw [show (1:ℚ)/2 - 497/1000 = 3/1000 by norm_num,
    abs_of_pos (by norm_num : (0:ℚ) < 3/1000),
    max_eq_right (by norm_num : (1:ℚ)/2 ≤ 1)]
  norm_num

lemma selectiveRefresh_half_eval :
    selectiveRefresh (fun _ => none) (Except.ok [restingHalf]) [nearGridSig] (8/1000)
      = (1, 0, []) := by
  have hfil : isEligibleLimit restingHalf = true := by decide
  have hgrid : isGridSignal nearGridSig = true := by decide
  have hbm : bestMatch ((8:ℚ)/1000 * (1/2)) restingHalf [nearGridSig]
      = some (nearGridSig, 3/1000) := by
    simp only [bestMatch, bestMatchLoop, restingHalf, nearGridSig, sideStr]
    norm_num [relDiff_half]
  have hstep : refreshStep ((8:ℚ)/1000 * (1/2)) ⟨[nearGridSig], [], 0⟩ restingHalf
      = ⟨[], [], 1⟩ := by
    simp only [refreshStep, hbm]
    simp
  simp only [selectiveRefresh, List.filter, hfil, hgrid, List.isEmpty_cons,
    Bool.false_eq_true, if_false, List.foldl_cons, List.foldl_nil, hstep]
  simp [executeOrders]

/-- Counterexample to C5 as stated: the code divides the price difference
by `max(resting_price, 1)`, not by `resting_price`.  For a resting BUY at
price 0.5 and a proposed grid BUY at 0.497 with grid spacing 0.008
(tolerance 0.004), the code keeps the order (difference 0.003 < 0.004)
although the claim's relative difference |0.5 - 0.497| / 0.5 = 0.006 is
not below the tolerance, so by the claim the order should be cancelled. -/
theorem selective_refresh_denominator_counterexample :
    (selectiveRefresh (fun _ => none) (Except.ok [restingHalf]) [nearGridSig] (8/1000)).1 = 1
    ∧ (selectiveRefresh (fun _ => none) (Except.ok [restingHalf]) [nearGridSig] (8/1000)).2.1 = 0
    ∧ ¬ (|restingHalf.price - nearGridSig.price| / restingHalf.price < (8/1000) * (1/2)) := by
  refine ⟨by rw [selectiveRefresh_half_eval], by rw [selectiveRefresh_half_eval], ?_⟩
  simp only [restingHalf, nearGridSig]
  rw [show (1:ℚ)/2 - 497/1000 = 3/1000 by norm_num,
    abs_of_pos (by norm_num : (0:ℚ) < 3/1000)]
  norm_num

/-- Witness for the amended C5 at the same concrete input: the eligible
resting-order list is nonempty and the selective refresh run is described
by a `MatchRun`. -/
theorem selective_refresh_matches_spec_witness :
    (([restingHalf].filter isEligibleLimit).isEmpty = false)
    ∧ ∃ Sf C,
      MatchRun ((8/1000) * (1/2)) ([restingHalf].filter isEligibleLimit)
        ([nearGridSig].filter isGridSignal) Sf C
        (selectiveRefresh (fun _ => none) (Except.ok [restingHalf]) [nearGridSig] (8/1000)).1
      ∧ (selectiveRefresh (fun _ => none) (Except.ok [restingHalf]) [nearGridSig] (8/1000)).2.1
          = C.length
      ∧ (selectiveRefresh (fun _ => none) (Except.ok [restingHalf]) [nearGridSig] (8/1000)).2.2
          = executeOrders (fun _ => none)
              (Sf ++ [nearGridSig].filter fun s => ! isGridSignal s) :=
  ⟨by decide,
    selective_refresh_matches_spec (fun _ => none) [restingHalf] [nearGridSig] (8/1000)
      (by decide)⟩

end CryptoBot

namespace CryptoBot

/-! ## GridSignalGenerator and DCAStateMachine (src/agents/strategy.py) -/

/-- The position dict distilled by `StrategyAgent._get_position_info`
(strategy.py lines 215-235); `None` models both "no position" and a
failed fetch, exactly as in the source. -/
structure PositionInfo where
  side : String
  amount : ℚ
  entryPrice : ℚ
  notional : ℚ
deriving DecidableEq, Repr

/-- The exchange-collaborator inputs one strategy call observes: the
`_get_position_info` result, the funding-rate fetch (`none` models the
exception path), and the precision-rounding callbacks
`price_to_precision` / `amount_to_precision`. -/
structure ExchangeView where
  positionInfo : Option PositionInfo
  fundingRate : Option ℚ
  roundPrice : ℚ → ℚ
  roundAmount : ℚ → ℚ

/-- `StrategyAgent._check_funding_rate_safety` (strategy.py lines
510-568).  The HIGH_FUNDING branches only log and still return True, so
they collapse into the fall-through; a failed fetch returns (True, 0.0). -/
def checkFundingRateSafety (fundingFetch : Option ℚ) (positionSide : String) : Bool × ℚ :=
  match fundingFetch with
  | none => (true, 0)
  | some fundingRate =>
    if positionSide = "LONG" then
      if fundingRate < -(5/10000) then (false, fundingRate) else (true, fundingRate)
    else if positionSide = "SHORT" then
      if (5/10000) < fundingRate then (false, fundingRate) else (true, fundingRate)
    else (true, fundingRate)

/-- The funding-rate gate at the top of `_grid_signals` (lines 87-103):
with an open position, check funding for that side; otherwise check LONG. -/
def fundingGate (env : ExchangeView) : Bool :=
  match env.positionInfo with
  | some p =>
    if 0 < p.amount then (checkFundingRateSafety env.fundingRate (strUpper p.side)).1
    else (checkFundingRateSafety env.fundingRate "LONG").1
  | none => (checkFundingRateSafety env.fundingRate "LONG").1

/-- `StrategyAgent._get_position_bias` (strategy.py lines 237-272). -/
def positionBias (positionInfo : Option PositionInfo) (gridNotional : ℚ) : ℤ :=
  match positionInfo with
  | none => 0
  | some p =>
    let positionRatio := if 0 < gridNotional then p.notional / gridNotional else 0
    if p.side = "long" then
      if 3 ≤ positionRatio then 3
      else if 2 ≤ positionRatio then 2
      else if 1 ≤ positionRatio then 1
      else 0
    else if p.side = "short" then
      if 3 ≤ positionRatio then -3
      else if 2 ≤ positionRatio then -2
      else if 1 ≤ positionRatio then -1
      else 0
    else 0

/-- The buy/sell level split of `_grid_signals` (lines 131-151).  Python
`//` on nonnegative ints is `Nat` division, but `num_grids // 2 - 1` can
go negative, so the split lives in `ℤ`. -/
def gridSplit (numGrids : ℕ) (effectiveBias : ℤ) : ℤ × ℤ :=
  if 2 ≤ effectiveBias then (0, (numGrids : ℤ))
  else if effectiveBias ≤ -2 then ((numGrids : ℤ), 0)
  else if 0 < effectiveBias then
    let numBuys : ℤ := max 1 (((numGrids / 2 : ℕ) : ℤ) - 1)
    (numBuys, (numGrids : ℤ) - numBuys)
  else if effectiveBias < 0 then
    let numSells : ℤ := max 1 (((numGrids / 2 : ℕ) : ℤ) - 1)
    ((numGrids : ℤ) - numSells, numSells)
  else (((numGrids / 2 : ℕ) : ℤ), ((numGrids / 2 : ℕ) : ℤ))

/-- The buy-side loop of `_grid_signals` (lines 157-165): level `i` is
priced at `price * (1 - spacing_pct * i)`, the amount is the rounded
`max(order_size_usdt * leverage / level_price, 0.001)`, and a level with
non-positive rounded amount is dropped. -/
def gridBuyLevels (env : ExchangeView) (pair : String)
    (price spacing orderSizeUsdt leverage : ℚ) (numBuys : ℕ) : List OrderSignal :=
  (List.range numBuys).filterMap fun (j : ℕ) =>
    let i : ℚ := (j : ℚ) + 1
    let levelPrice := env.roundPrice (price * (1 - spacing * i))
    let amount := env.roundAmount (max (orderSizeUsdt * leverage / levelPrice) (1/1000))
    if amount ≤ 0 then none
    else some ⟨pair, OrderSide.BUY, levelPrice, amount, SignalType.GRID_BUY⟩

/-- The sell-side loop of `_grid_signals` (lines 167-175), mirroring the
buy side with `price * (1 + spacing_pct * i)`. -/
def gridSellLevels (env : ExchangeView) (pair : String)
    (price spacing orderSizeUsdt leverage : ℚ) (numSells : ℕ) : List OrderSignal :=
  (List.range numSells).filterMap fun (j : ℕ) =>
    let i : ℚ := (j : ℚ) + 1
    let levelPrice := env.roundPrice (price * (1 + spacing * i))
    let amount := env.roundAmount (max (orderSizeUsdt * leverage / levelPrice) (1/1000))
    if amount ≤ 0 then none
    else some ⟨pair, OrderSide.SELL, levelPrice, amount, SignalType.GRID_SELL⟩

/-- `StrategyAgent._grid_signals` (strategy.py lines 74-199) as a function
of the market state fields and the exchange view. -/
def gridSignals (env : ExchangeView) (pair : String) (params : GridParams)
    (price bbUpper bbLower adx confidence leverage : ℚ) (bias : ℤ) : List OrderSignal :=
  if fundingGate env = false then []
  else
    let spacing := spacingPct bbUpper bbLower price adx confidence params.numGrids
    let pbias := positionBias env.positionInfo (params.orderSizeUsdt * leverage)
    let effectiveBias := bias + pbias
    let split := gridSplit params.numGrids effectiveBias
    gridBuyLevels env pair price spacing params.orderSizeUsdt leverage split.1.toNat
      ++ gridSellLevels env pair price spacing params.orderSizeUsdt leverage split.2.toNat

/-- Number of signals of one side in a list. -/
def countSide (side : OrderSide) (signals : List OrderSignal) : ℕ :=
  (signals.filter fun s => s.side == side).length

/-- A row of the `dca_state` table (database/db.py, written by
`_create_dca` / `_update_dca` / `_close_dca`). -/
structure DcaState where
  pair : String
  entries : ℕ
  totalQty : ℚ
  totalCost : ℚ
  avgEntryPrice : ℚ
  lastEntryPrice : ℚ
  active : Bool
deriving DecidableEq, Repr

/-- `StrategyAgent._dca_signals` (strategy.py lines 274-356) as a state
transition: input the active row as `_get_active_dca` returns it (`none`
when no active row exists) and the current price; output the row as left
in the database and the emitted signals.  `_create_dca` (lines 421-431)
writes entries=1, the rounded amount as total_qty, the un-leveraged
`buy_usdt` as total_cost and the entry price as both avg and last entry
price; `_update_dca` (lines 433-442) stores the recomputed
`new_total_cost / new_total_qty` as the average. -/
def dcaSignals (env : ExchangeView) (p : DcaParams) (dcaReserve leverage : ℚ)
    (pair : String) (price : ℚ) (dca : Option DcaState) : DcaState × List OrderSignal :=
  match dca with
  | none =>
    let buyUsdt := dcaReserve * p.entryPct
    let amount := env.roundAmount (max (buyUsdt * leverage / price) (1/1000))
    (⟨pair, 1, amount, buyUsdt, price, price, true⟩,
     [⟨pair, OrderSide.BUY, price, amount, SignalType.DCA_BUY⟩])
  | some dca0 =>
    let step :=
      if dca0.entries < p.maxEntriesPerDip
          ∧ p.additionalDropPct ≤ (dca0.lastEntryPrice - price) / dca0.lastEntryPrice then
        let buyUsdt := dcaReserve * p.entryPct
        let amount := env.roundAmount (max (buyUsdt * leverage / price) (1/1000))
        let newTotalQty := dca0.totalQty + amount
        let newTotalCost := dca0.totalCost + buyUsdt
        let newAvg := newTotalCost / newTotalQty
        let row1 : DcaState :=
          { dca0 with
            entries := dca0.entries + 1
            totalQty := newTotalQty
            totalCost := newTotalCost
            avgEntryPrice := newAvg
            lastEntryPrice := price }
        (row1, [(⟨pair, OrderSide.BUY, price, amount, SignalType.DCA_BUY⟩ : OrderSignal)])
      else (dca0, ([] : List OrderSignal))
    let row := step.1
    let tpPrice := env.roundPrice (row.avgEntryPrice * (1 + p.takeProfitPct))
    if tpPrice ≤ price then
      match env.positionInfo with
      | some pos =>
        if pos.side = "short" then ({ row with active := false }, step.2)
        else ({ row with active := false },
          step.2 ++ [⟨pair, OrderSide.SELL, tpPrice,
            env.roundAmount row.totalQty, SignalType.DCA_TAKE_PROFIT⟩])
      | none =>
        ({ row with active := false },
          step.2 ++ [⟨pair, OrderSide.SELL, tpPrice,
            env.roundAmount row.totalQty, SignalType.DCA_TAKE_PROFIT⟩])
    else (row, step.2)

/-- An exchange view with no position, no funding data and exact
(identity) precision rounding. -/
def idEnv : ExchangeView := ⟨none, none, id, id⟩

end CryptoBot

namespace CryptoBot

lemma length_filterMap_of_isSome {α β : Type _} (f : α → Option β) (l : List α)
    (h : ∀ a ∈ l, (f a).isSome = true) : (l.filterMap f).length = l.length := by
  induction l with
  | nil => rfl
  | cons a l ih =>
    have hmem := h a (List.mem_cons_self a l)
    cases hfa : f a with
    | none => rw [hfa] at hmem; simp at hmem
    | some b =>
      rw [List.filterMap_cons, hfa, List.length_cons, List.length_cons,
        ih (fun x hx => h x (List.mem_cons_of_mem a hx))]

lemma gridBuyLevels_length (env : ExchangeView) (pair : String)
    (price spacing orderSizeUsdt leverage : ℚ) (n : ℕ)
    (hround : ∀ q : ℚ, 1/1000 ≤ q → 0 < env.roundAmount q) :
    (gridBuyLevels env pair price spacing orderSizeUsdt leverage n).length = n := by
  unfold gridBuyLevels
  refine (length_filterMap_of_isSome _ _ ?_).trans (List.length_range n)
  intro j _
  have hpos := hround _ (le_max_right
    (orderSizeUsdt * leverage / (env.roundPrice (price * (1 - spacing * ((j:ℚ)+1))))) (1/1000))
  simp only [if_neg (not_le.mpr hpos), Option.isSome_some]

lemma gridSellLevels_length (env : ExchangeView) (pair : String)
    (price spacing orderSizeUsdt leverage : ℚ) (n : ℕ)
    (hround : ∀ q : ℚ, 1/1000 ≤ q → 0 < env.roundAmount q) :
    (gridSellLevels env pair price spacing orderSizeUsdt leverage n).length = n := by
  unfold gridSellLevels
  refine (length_filterMap_of_isSome _ _ ?_).trans (List.length_range n)
  intro j _
  have hpos := hround _ (le_max_right
    (orderSizeUsdt * leverage / (env.roundPrice (price * (1 + spacing * ((j:ℚ)+1))))) (1/1000))
  simp only [if_neg (not_le.mpr hpos), Option.isSome_some]

lemma gridBuyLevels_side (env : ExchangeView) (pair : String)
    (price spacing orderSizeUsdt leverage : ℚ) (n : ℕ) :
    ∀ s ∈ gridBuyLevels env pair price spacing orderSizeUsdt leverage n,
      s.side = OrderSide.BUY := by
  intro s hs
  rw [gridBuyLevels] at hs
  rcases List.mem_filterMap.mp hs with ⟨j, -, hfj⟩
  simp only at hfj
  split at hfj
  · cases hfj
  · cases hfj
    rfl

lemma gridSellLevels_side (env : ExchangeView) (pair : String)
    (price spacing orderSizeUsdt leverage : ℚ) (n : ℕ) :
    ∀ s ∈ gridSellLevels env pair price spacing orderSizeUsdt leverage n,
      s.side = OrderSide.SELL := by
  intro s hs
  rw [gridSellLevels] at hs
  rcases List.mem_filterMap.mp hs with ⟨j, -, hfj⟩
  simp only at hfj
  split at hfj
  · cases hfj
  · cases hfj
    rfl

lemma countSide_append (side : OrderSide) (l1 l2 : List OrderSignal) :
    countSide side (l1 ++ l2) = countSide side l1 + countSide side l2 := by
  simp [countSide, List.filter_append]

lemma countSide_eq_length (side : OrderSide) (l : List OrderSignal)
    (h : ∀ s ∈ l, s.side = side) : countSide side l = l.length := by
  unfold countSide
  rw [List.filter_eq_self.mpr]
  intro s hs
  simp [h s hs]

lemma countSide_eq_zero (side other : OrderSide) (l : List OrderSignal)
    (hne : other ≠ side) (h : ∀ s ∈ l, s.side = other) : countSide side l = 0 := by
  unfold countSide
  rw [List.length_eq_zero, List.filter_eq_nil]
  intro s hs
  simp [h s hs, hne]

/-- The two sides of the level split are nonnegative, sum to the (even)
level count, and close-only bias forces one side to zero. -/
lemma gridSplit_spec (numGrids : ℕ) (eff : ℤ) (heven : 2 ∣ numGrids) (hge : 2 ≤ numGrids) :
    (gridSplit numGrids eff).1.toNat + (gridSplit numGrids eff).2.toNat = numGrids
    ∧ (2 ≤ eff → (gridSplit numGrids eff).1.toNat = 0
        ∧ (gridSplit numGrids eff).2.toNat = numGrids)
    ∧ (eff ≤ -2 → (gridSplit numGrids eff).2.toNat = 0
        ∧ (gridSplit numGrids eff).1.toNat = numGrids) := by
  unfold gridSplit
  split_ifs with h1 h2 h3 h4 <;> simp only <;> omega

/-- C8 (amended): for a configured instrument, when the funding-rate gate
lets the grid run and precision rounding keeps the floored minimum
quantity positive, the buy-side and sell-side signal counts sum to the
configured level count, and close-only mode (effective bias magnitude at
least 2) forces the exposure-adding side to exactly 0 and gives all
levels to the reducing side. -/
theorem grid_side_counts (env : ExchangeView) (pair : String) (params : GridParams)
    (price bbUpper bbLower adx confidence leverage : ℚ) (bias : ℤ)
    (hmem : (pair, params) ∈ GRID_PARAMS)
    (hgate : fundingGate env = true)
    (hround : ∀ q : ℚ, 1/1000 ≤ q → 0 < env.roundAmount q) :
    countSide OrderSide.BUY
        (gridSignals env pair params price bbUpper bbLower adx confidence leverage bias)
      + countSide OrderSide.SELL
        (gridSignals env pair params price bbUpper bbLower adx confidence leverage bias)
      = params.numGrids
    ∧ (2 ≤ bias + positionBias env.positionInfo (params.orderSizeUsdt * leverage) →
        countSide OrderSide.BUY
          (gridSignals env pair params price bbUpper bbLower adx confidence leverage bias) = 0
        ∧ countSide OrderSide.SELL
          (gridSignals env pair params price bbUpper bbLower adx confidence leverage bias)
          = params.numGrids)
    ∧ (bias + positionBias env.positionInfo (params.orderSizeUsdt * leverage) ≤ -2 →
        countSide OrderSide.SELL
          (gridSignals env pair params price bbUpper bbLower adx confidence leverage bias) = 0
        ∧ countSide OrderSide.BUY
          (gridSignals env pair params price bbUpper bbLower adx confidence leverage bias)
          = params.numGrids) := by
  have hparams : 2 ∣ params.numGrids ∧ 2 ≤ params.numGrids := by
    simp only [GRID_PARAMS, List.mem_cons, Prod.mk.injEq, List.not_mem_nil, or_false] at hmem
    rcases hmem with ⟨-, rfl⟩ | ⟨-, rfl⟩ | ⟨-, rfl⟩ | ⟨-, rfl⟩ | ⟨-, rfl⟩ <;>
      exact ⟨by norm_num, by norm_num⟩
  have hout : gridSignals env pair params price bbUpper bbLower adx confidence leverage bias
      = gridBuyLevels env pair price
          (spacingPct bbUpper bbLower price adx confidence params.numGrids)
          params.orderSizeUsdt leverage
          (gridSplit params.numGrids
            (bias + positionBias env.positionInfo (params.orderSizeUsdt * leverage))).1.toNat
        ++ gridSellLevels env pair price
          (spacingPct bbUpper bbLower price adx confidence params.numGrids)
          params.orderSizeUsdt leverage
          (gridSplit params.numGrids
            (bias + positionBias env.positionInfo (params.orderSizeUsdt * leverage))).2.toNat := by
    simp [gridSignals, hgate]
  have hbuy : countSide OrderSide.BUY
      (gridSignals env pair params price bbUpper bbLower adx confidence leverage bias)
      = (gridSplit params.numGrids
          (bias + positionBias env.positionInfo (params.orderSizeUsdt * leverage))).1.toNat := by
    rw [hout, countSide_append,
      countSide_eq_length _ _ (gridBuyLevels_side _ _ _ _ _ _ _),
      countSide_eq_zero OrderSide.BUY OrderSide.SELL _ (by decide)
        (gridSellLevels_side _ _ _ _ _ _ _),
      gridBuyLevels_length _ _ _ _ _ _ _ hround]
    omega
  have hsell : countSide OrderSide.SELL
      (gridSignals env pair params price bbUpper bbLower adx confidence leverage bias)
      = (gridSplit params.numGrids
          (bias + positionBias env.positionInfo (params.orderSizeUsdt * leverage))).2.toNat := by
    rw [hout, countSide_append,
      countSide_eq_zero OrderSide.SELL OrderSide.BUY _ (by decide)
        (gridBuyLevels_side _ _ _ _ _ _ _),
      countSide_eq_length _ _ (gridSellLevels_side _ _ _ _ _ _ _),
      gridSellLevels_length _ _ _ _ _ _ _ hround]
    omega
  obtain ⟨hsum, hclose1, hclose2⟩ := gridSplit_spec params.numGrids
    (bias + positionBias env.positionInfo (params.orderSizeUsdt * leverage))
    hparams.1 hparams.2
  refine ⟨by rw [hbuy, hsell]; exact hsum, fun h => ?_, fun h => ?_⟩
  · obtain ⟨h1, h2⟩ := hclose1 h
    rw [hbuy, hsell]
    exact ⟨h1, h2⟩
  · obtain ⟨h1, h2⟩ := hclose2 h
    rw [hbuy, hsell]
    exact ⟨h1, h2⟩

/-- The BTC grid configuration (first entry of GRID_PARAMS). -/
def btcParams : GridParams := ⟨6, 8/1000, 25, 48/1000⟩

/-- An exchange view with no position and an extreme negative funding
rate (-0.1%, beyond the -0.05% threshold). -/
def fundingUnsafeEnv : ExchangeView := ⟨none, some (-(1/1000)), id, id⟩

/-- Counterexample to C8 as stated: under extreme negative funding with
no open position, `_grid_signals` returns no signals at all, so both side
counts are 0 although the effective bias is 0 (not close-only) and the
configured level count is 6: the two sides do not sum to the configured
count. -/
theorem grid_funding_skip_counterexample :
    gridSignals fundingUnsafeEnv "BTC/USDT:USDT" btcParams 50000 51000 49000 18 1 10 0 = []
    ∧ (0 : ℤ) + positionBias fundingUnsafeEnv.positionInfo (btcParams.orderSizeUsdt * 10) = 0
    ∧ countSide OrderSide.BUY
        (gridSignals fundingUnsafeEnv "BTC/USDT:USDT" btcParams 50000 51000 49000 18 1 10 0)
      + countSide OrderSide.SELL
        (gridSignals fundingUnsafeEnv "BTC/USDT:USDT" btcParams 50000 51000 49000 18 1 10 0)
      ≠ btcParams.numGrids := by
  have hgate : fundingGate fundingUnsafeEnv = false := by
    show (checkFundingRateSafety (some (-(1/1000))) "LONG").1 = false
    norm_num [checkFundingRateSafety]
  have hnil : gridSignals fundingUnsafeEnv "BTC/USDT:USDT" btcParams 50000 51000 49000 18 1 10 0
      = [] := by
    simp [gridSignals, hgate]
  refine ⟨hnil, rfl, ?_⟩
  rw [hnil]
  decide

/-- Witness for the amended C8: BTC configuration, safe funding (no data),
exact rounding, no position: the side counts sum to 6. -/
theorem grid_side_counts_witness :
    countSide OrderSide.BUY (gridSignals idEnv "BTC/USDT:USDT" btcParams 50000 51000 49000 18 1 10 0)
      + countSide OrderSide.SELL (gridSignals idEnv "BTC/USDT:USDT" btcParams 50000 51000 49000 18 1 10 0)
      = btcParams.numGrids :=
  (grid_side_counts idEnv "BTC/USDT:USDT" btcParams 50000 51000 49000 18 1 10 0
    (by unfold GRID_PARAMS btcParams; exact List.mem_cons_self _ _)
    rfl
    (fun q hq => lt_of_lt_of_le (by norm_num) hq)).1

/-- Evaluation of the first CRASH entry at price 50000 with the configured
parameters (reserve 225, entry 5%, leverage 10) and exact rounding:
`_create_dca` stores total_qty = 0.00225 (the leveraged amount),
total_cost = 11.25 (the un-leveraged margin) and avg = last = 50000. -/
lemma dca_first_eval :
    dcaSignals idEnv DCA_PARAMS DCA_RESERVE LEVERAGE "BTC/USDT:USDT" 50000 none
      = (⟨"BTC/USDT:USDT", 1, 9/4000, 45/4, 50000, 50000, true⟩,
         [⟨"BTC/USDT:USDT", OrderSide.BUY, 50000, 9/4000, SignalType.DCA_BUY⟩]) := by
  have hmax : max ((225 : ℚ) * (5/100) * 10 / 50000) (1/1000) = 9/4000 := by
    rw [max_eq_left (by norm_num)]
    norm_num
  simp only [dcaSignals, idEnv, DCA_PARAMS, DCA_RESERVE, LEVERAGE, id_eq, hmax]
  norm_num [Prod.ext_iff, DcaState.mk.injEq, OrderSignal.mk.injEq]

/-- C1 (code bug): after the first entry that creates the DCA row the
stored average entry price is the entry price 50000 while
total_cost / total_qty is 5000 — a factor-of-leverage discrepancy (the
row stores the un-leveraged margin as cost but the leveraged quantity),
violating the claimed invariant far beyond any floating tolerance. -/
theorem dca_first_entry_breaks_avg_invariant :
    0 < (dcaSignals idEnv DCA_PARAMS DCA_RESERVE LEVERAGE "BTC/USDT:USDT" 50000 none).1.totalQty
    ∧ (dcaSignals idEnv DCA_PARAMS DCA_RESERVE LEVERAGE "BTC/USDT:USDT" 50000 none).1.avgEntryPrice
        = 50000
    ∧ (dcaSignals idEnv DCA_PARAMS DCA_RESERVE LEVERAGE "BTC/USDT:USDT" 50000 none).1.totalCost
        / (dcaSignals idEnv DCA_PARAMS DCA_RESERVE LEVERAGE "BTC/USDT:USDT" 50000 none).1.totalQty
        = 5000
    ∧ (dcaSignals idEnv DCA_PARAMS DCA_RESERVE LEVERAGE "BTC/USDT:USDT" 50000 none).1.avgEntryPrice
        ≠ (dcaSignals idEnv DCA_PARAMS DCA_RESERVE LEVERAGE "BTC/USDT:USDT" 50000 none).1.totalCost
          / (dcaSignals idEnv DCA_PARAMS DCA_RESERVE LEVERAGE "BTC/USDT:USDT" 50000 none).1.totalQty := by
  rw [dca_first_eval]
  norm_num

/-- Evaluation of the second CRASH entry at price 48000 on the row left by
the first entry: the 4% drop triggers entry 2, the recomputed average
22.5 / 0.00459375 = 240000/49 ≈ 4897.96 is price/leverage-scale, and the
bot then immediately "takes profit" at 242400/49 ≈ 4946.94. -/
lemma dca_second_eval :
    dcaSignals idEnv DCA_PARAMS DCA_RESERVE LEVERAGE "BTC/USDT:USDT" 48000
      (some ⟨"BTC/USDT:USDT", 1, 9/4000, 45/4, 50000, 50000, true⟩)
      = (⟨"BTC/USDT:USDT", 2, 147/32000, 45/2, 240000/49, 48000, false⟩,
         [⟨"BTC/USDT:USDT", OrderSide.BUY, 48000, 3/1280, SignalType.DCA_BUY⟩,
          ⟨"BTC/USDT:USDT", OrderSide.SELL, 242400/49, 147/32000,
            SignalType.DCA_TAKE_PROFIT⟩]) := by
  have hmax : max ((225 : ℚ) * (5/100) * 10 / 48000) (1/1000) = 3/1280 := by
    rw [max_eq_left (by norm_num)]
    norm_num
  have hcond : (1 < 3 ∧ (3:ℚ)/100 ≤ ((50000 : ℚ) - 48000) / 50000) := ⟨by norm_num, by norm_num⟩
  simp only [dcaSignals, idEnv, DCA_PARAMS, DCA_RESERVE, LEVERAGE, id_eq, hmax]
  rw [if_pos hcond]
  dsimp only
  rw [if_pos (show ((45:ℚ)/4 + 225 * (5/100)) / (9/4000 + 3/1280) * (1 + 1/100) ≤ 48000
    by norm_num)]
  norm_num [Prod.ext_iff, DcaState.mk.injEq, OrderSignal.mk.injEq]

/-- C2 (code bug): the second CRASH call at 48000 does emit a second
DCA_BUY at 48000 and raises entry_count to 2, but the recomputed average
entry price is 240000/49 ≈ 4897.96 — price/leverage scale, not strictly
between 48000 and 50000 as the claim states (and the row is immediately
deactivated by a spurious take-profit at ≈ 4946.94). -/
theorem dca_second_entry_avg_not_between :
    (dcaSignals idEnv DCA_PARAMS DCA_RESERVE LEVERAGE "BTC/USDT:USDT" 48000
        (some (dcaSignals idEnv DCA_PARAMS DCA_RESERVE LEVERAGE "BTC/USDT:USDT" 50000 none).1)).2.head?
      = some ⟨"BTC/USDT:USDT", OrderSide.BUY, 48000, 3/1280, SignalType.DCA_BUY⟩
    ∧ (dcaSignals idEnv DCA_PARAMS DCA_RESERVE LEVERAGE "BTC/USDT:USDT" 48000
        (some (dcaSignals idEnv DCA_PARAMS DCA_RESERVE LEVERAGE "BTC/USDT:USDT" 50000 none).1)).1.entries
      = 2
    ∧ (dcaSignals idEnv DCA_PARAMS DCA_RESERVE LEVERAGE "BTC/USDT:USDT" 48000
        (some (dcaSignals idEnv DCA_PARAMS DCA_RESERVE LEVERAGE "BTC/USDT:USDT" 50000 none).1)).1.avgEntryPrice
      = 240000/49
    ∧ ¬ (48000 < (dcaSignals idEnv DCA_PARAMS DCA_RESERVE LEVERAGE "BTC/USDT:USDT" 48000
          (some (dcaSignals idEnv DCA_PARAMS DCA_RESERVE LEVERAGE "BTC/USDT:USDT" 50000 none).1)).1.avgEntryPrice
        ∧ (dcaSignals idEnv DCA_PARAMS DCA_RESERVE LEVERAGE "BTC/USDT:USDT" 48000
          (some (dcaSignals idEnv DCA_PARAMS DCA_RESERVE LEVERAGE "BTC/USDT:USDT" 50000 none).1)).1.avgEntryPrice
          < 50000) := by
  rw [dca_first_eval]
  rw [dca_second_eval]
  refine ⟨rfl, rfl, rfl, ?_⟩
  rintro ⟨h1, -⟩
  norm_num at h1

end CryptoBot
